import Mathlib

/-!
Shallow embedding of the coin identity-commitment and double-spend
arbitration protocol of `src/driver.js` (an offline anonymous e-cash
scheme in the style of Chaum's DigiCash).

Byte strings (Node `Buffer`s and the ASCII strings derived from them)
are modelled as `List Nat`, one entry per byte.  The repository file
`coin.js` (defining the `Coin` class, `COIN_RIS_LENGTH`, `IDENT_STR`
and `BANK_STR`) and `utils.js` (hash and randomness helpers) are not
part of the sources; where they are needed they are modelled from the
spec, as marked in the individual doc comments.  The external
blind-signature primitive is opaque per the spec; its verification
verdict is carried on the modelled coin as an abstract boolean, and
the external hash is passed as an explicit function parameter.
-/

/-- Byte strings: one `Nat` per byte. -/
abbrev Bytes := List Nat

/-- Modelled from the spec: `BANK_STR` is the fixed issuer tag imported
from the absent `coin.js`; the spec fixes only that it is a constant
agreed out-of-band.  Bytes of the ASCII text `BANK`. -/
def BANK_STR : Bytes := [66, 65, 78, 75]

/-- Modelled from the spec: `IDENT_STR` is the fixed identity tag
imported from the absent `coin.js`, distinct from `BANK_STR`, and the
colon that follows it in the identity-tag format is a separate
delimiter.  Bytes of the ASCII text `IDENT`. -/
def IDENT_STR : Bytes := [73, 68, 69, 78, 84]

/-- JavaScript `s.split(d)` on byte strings: splits at every occurrence
of the delimiter byte `d`; the empty string splits to `[""]`. -/
def splitOn (d : Nat) : Bytes → List Bytes
  | [] => [[]]
  | b :: bs =>
    let r := splitOn d bs
    if b = d then [] :: r
    else
      match r with
      | [] => [[b]]
      | x :: xs => (b :: x) :: xs

/-- JavaScript `arr.join(d)` on byte strings. -/
def joinCsv (d : Nat) : List Bytes → Bytes
  | [] => []
  | [x] => x
  | x :: xs => x ++ d :: joinCsv d xs

/-- JavaScript `s.startsWith(p)` on byte strings (first argument is the
sought p). -/
def startsWithBytes : Bytes → Bytes → Bool
  | [], _ => true
  | _ :: _, [] => false
  | p :: ps, b :: bs => if p = b then startsWithBytes ps bs else false

/-- The XOR loop of `determineCheater` (`driver.js` lines 116-119):
`xorBuf = Buffer.alloc(part1.length)` followed by
`xorBuf[j] = part1[j] ^ part2[j]`.  The result has the length of the
first operand; reading past the end of the second operand gives
`undefined`, which `^` coerces to `0`; the buffer write keeps a byte. -/
def byteXor (a b : Bytes) : Bytes :=
  (List.range a.length).map (fun j => ((a.getD j 0) ^^^ (b.getD j 0)) % 256)

/-- `result.split(IDENT_DELIM)[1]` of `driver.js` line 123: the text after the
first colon (byte 58), `none` when the string holds no colon (JS
`undefined`). -/
def extractIdentity (bs : Bytes) : Option Bytes :=
  (splitOn 58 bs).get? 1

/-- Decimal rendering of a natural number, as bytes of its digits
(JavaScript template-literal interpolation of a number). -/
def natDigitsFuel : Nat → Nat → Bytes
  | 0, _ => []
  | fuel + 1, n => if n < 10 then [48 + n] else natDigitsFuel fuel (n / 10) ++ [48 + n % 10]

def natToBytes (n : Nat) : Bytes := natDigitsFuel (n + 1) n

/-- Lower-case hex digit byte for a value below 16. -/
def hexDigit (n : Nat) : Nat := if n < 10 then 48 + n else 87 + n

def hexByte (b : Nat) : Bytes := [hexDigit (b / 16), hexDigit (b % 16)]

/-- A concrete stand-in for the external `utils.hash` digest: each byte
hex-encoded (digest alphabet `0-9a-f`, free of the `-` and `,`
delimiters, as a real hex digest string is).  The protocol functions
take the hash as a parameter; this is only the instantiation used by
the concrete demonstration data. -/
def hexEncode (bs : Bytes) : Bytes := (bs.map hexByte).flatten

/-- Modelled from the spec: the `Coin` entity of the absent `coin.js`.
`guid` and `amount` name the token; `leftRis`/`rightRis` are the two
ordered share lists; `leftHash`/`rightHash` the published commitments;
`sigOk` carries the verdict of the opaque external blind-signature
verification for this coin (`blindSignatures.verify` over the coin's
canonical string, `n` and `e`). -/
structure Coin where
  guid : Bytes
  amount : Nat
  leftRis : List Bytes
  rightRis : List Bytes
  leftHash : List Bytes
  rightHash : List Bytes
  sigOk : Bool
deriving DecidableEq

/-- Modelled from the spec: `coin.getRis(isLeft, i)` of the absent
`coin.js` returns the `i`-th share of the chosen side. -/
def Coin.getRis (c : Coin) (isLeft : Bool) (i : Nat) : Bytes :=
  if isLeft then c.leftRis.getD i [] else c.rightRis.getD i []

/-- Modelled from the spec: the canonical serialized form of a token,
`<BANK_TAG>-<amount>-<id>-<csv(leftHash)>-<csv(rightHash)>`
(`coin.toString()` of the absent `coin.js`; bytes 45 and 44 are `-`
and `,`). -/
def Coin.toCanonicalString (c : Coin) : Bytes :=
  BANK_STR ++ 45 :: natToBytes c.amount ++ 45 :: c.guid ++
    45 :: joinCsv 44 c.leftHash ++ 45 :: joinCsv 44 c.rightHash

/-- The two ways `parseCoin` can throw: the explicit
`Invalid identity string` error (the spec's `FormatError`) and the
implicit JavaScript `TypeError` from calling `.split` on `undefined`
when fewer than five `-`-separated fields are present. -/
inductive ParseError where
  | formatError
  | typeError
deriving DecidableEq

/-- `parseCoin` (`driver.js` lines 34-43): destructure
`s.split('-')` into five fields, throw when the first differs from
`BANK_STR`, and return the two comma-split hash lists.  Missing hash
fields make the `.split(',')` call throw a `TypeError`; extra fields
beyond the fifth are silently discarded by the destructuring; the
`amt` and `guid` fields are never inspected. -/
def parseCoin (s : Bytes) : Except ParseError (List Bytes × List Bytes) :=
  if (splitOn 45 s).getD 0 [] ≠ BANK_STR then
    Except.error ParseError.formatError
  else if (splitOn 45 s).length < 5 then
    Except.error ParseError.typeError
  else
    Except.ok (splitOn 44 ((splitOn 45 s).getD 3 []),
               splitOn 44 ((splitOn 45 s).getD 4 []))

/-- The ways the nested `acceptCoin` can throw: `Invalid coin
signature.` (the spec's `InvalidSignatureError`), `Hash mismatch, coin
tampered.` (the spec's `TamperedTokenError`), or a propagated
`parseCoin` failure. -/
inductive AcceptError where
  | invalidSignature
  | hashMismatch
  | parseFailure (e : ParseError)
deriving DecidableEq

/-- The hash-verification loop of the nested `acceptCoin`
(`driver.js` lines 75-85), scanning indices `i`, `i+1`, ... for
`fuel` further steps: fetch the share of the chosen side, compare its
hash against the parsed commitment (`undefined` at an out-of-range
index compares unequal), throw at the first mismatch, and accumulate
the shares in order. -/
def acceptLoop (H : Bytes → Bytes) (c : Coin) (isLeft : Bool) (hashes : List Bytes) :
    Nat → Nat → Except AcceptError (List Bytes)
  | _, 0 => Except.ok []
  | i, fuel + 1 =>
    let ris := c.getRis isLeft i
    if hashes.get? i = some (H ris) then
      match acceptLoop H c isLeft hashes (i + 1) fuel with
      | Except.ok rest => Except.ok (ris :: rest)
      | Except.error e => Except.error e
    else Except.error AcceptError.hashMismatch

/-- The nested `acceptCoin` of `driver.js` lines 55-88: verify the
signature (modelled verdict `c.sigOk`), then parse the canonical
string, then run the hash-verification loop over `k` indices
(`COIN_RIS_LENGTH` of the absent `coin.js`, passed as the parameter
`k`) for the side selected by the injected random bit `isLeft`
(`utils.randInt(2) === 0` in the source), returning the accumulated
selected half. -/
def acceptCoinInner (H : Bytes → Bytes) (k : Nat) (c : Coin) (isLeft : Bool) :
    Except AcceptError (List Bytes) :=
  if c.sigOk = false then Except.error AcceptError.invalidSignature
  else
    match parseCoin c.toCanonicalString with
    | Except.error e => Except.error (AcceptError.parseFailure e)
    | Except.ok (lh, rh) => acceptLoop H c isLeft (if isLeft then lh else rh) 0 k

/-- The outer `acceptCoin` of `driver.js` lines 53-96: its body holds
only the nested function declaration (modelled as `acceptCoinInner`)
and comments, contains no call and no return statement, and so
returns `undefined` (`none`) for every coin. -/
def acceptCoin (_c : Coin) : Option (List Bytes) := none

/-- The classification printed by the nested `determineCheater`: the
double-spending message naming the recovered creator
(`SpenderIdentified`, with `none` for a printed `undefined`), or the
`RIS identical` merchant double-report message (`MerchantDuplicate`). -/
inductive Outcome where
  | spenderIdentified (identity : Option Bytes)
  | merchantDuplicate
deriving DecidableEq

/-- The scan loop of the nested `determineCheater` (`driver.js` lines
112-126), from index `i` for `fuel` further steps: XOR the two shares
at the index, return the spender verdict at the first XOR that starts
with `IDENT_STR` (identity = text after the first colon), and fall
through to the merchant verdict when no index matches. -/
def dcScan (ris1 ris2 : List Bytes) : Nat → Nat → Outcome
  | _, 0 => Outcome.merchantDuplicate
  | i, fuel + 1 =>
    let x := byteXor (ris1.getD i []) (ris2.getD i [])
    if startsWithBytes IDENT_STR x then Outcome.spenderIdentified (extractIdentity x)
    else dcScan ris1 ris2 (i + 1) fuel

/-- The nested `determineCheater` of `driver.js` lines 111-129, with
the loop bound `COIN_RIS_LENGTH` of the absent `coin.js` passed as the
parameter `k`. -/
def determineCheaterRun (k : Nat) (ris1 ris2 : List Bytes) : Outcome :=
  dcScan ris1 ris2 0 k

/-- The outer `determineCheater` of `driver.js` lines 109-136: its body
holds only the nested function declaration (modelled as
`determineCheaterRun`) and comments, contains no call, prints nothing
and returns `undefined` (`none`) for every argument triple. -/
def determineCheater (_guid : Bytes) (_ris1 _ris2 : List Bytes) : Option Outcome := none

/-- Refinement definition following the spec's words (section 6): a
byte string matches the identity-tag format `<IDENT_TAG>:<identity>`
when it starts with the tag followed by the colon delimiter.  Declared
for comparison with the looser `startsWithBytes IDENT_STR` test the
source applies. -/
def identTagPattern (bs : Bytes) : Bool :=
  startsWithBytes (IDENT_STR ++ [58]) bs

/-- Bytes of the ASCII text `alice`. -/
def aliceId : Bytes := [97, 108, 105, 99, 101]

/-- Modelled from the spec: the identity tag `IDENT:alice` that every
share pair of alice's token XORs to. -/
def identTag : Bytes := IDENT_STR ++ 58 :: aliceId

/-- Three concrete right-hand shares (bytes of `aaaaaaaaaaa`,
`bbbbbbbbbbb`, `ccccccccccc`, each of the tag's length 11). -/
def aliceRight : List Bytes :=
  [List.replicate 11 97, List.replicate 11 98, List.replicate 11 99]

/-- The matching left-hand shares: each right share XORed with the
identity tag, so that `XOR(leftShare[i], rightShare[i])` decodes to
the tag at every index (the spec's split-secret invariant). -/
def aliceLeft : List Bytes := aliceRight.map (fun r => byteXor r identTag)

/-- Modelled from the spec: a token created for identity `alice`,
amount `20`, redundancy `k = 3`, with commitments
`leftHash[i] = H(leftShare[i])` (hash instantiated as `hexEncode`) and
a signature that verifies. -/
def aliceCoin : Coin :=
  { guid := [99, 111, 105, 110, 49]
    amount := 20
    leftRis := aliceLeft
    rightRis := aliceRight
    leftHash := aliceLeft.map hexEncode
    rightHash := aliceRight.map hexEncode
    sigOk := true }

/-- The same token under a different globally unique id (`coin2`). -/
def aliceCoin2 : Coin := { aliceCoin with guid := [99, 111, 105, 110, 50] }

/-- Alice's token with its signature verdict flipped to failing. -/
def badCoin : Coin := { aliceCoin with sigOk := false }

lemma acceptLoop_ok (H : Bytes → Bytes) (c : Coin) (b : Bool) (hashes : List Bytes) :
    ∀ fuel i ris, acceptLoop H c b hashes i fuel = Except.ok ris →
      ris.length = fuel ∧ ∀ t, t < fuel → ris.get? t = some (c.getRis b (i + t)) := by
  intro fuel
  induction fuel with
  | zero =>
    intro i ris h
    simp only [acceptLoop] at h
    cases h
    simp
  | succ f ih =>
    intro i ris h
    simp only [acceptLoop] at h
    split at h
    · cases heq : acceptLoop H c b hashes (i + 1) f with
      | error e => rw [heq] at h; cases h
      | ok rest =>
        rw [heq] at h
        cases h
        obtain ⟨hlen, hget⟩ := ih (i + 1) rest heq
        constructor
        · simp [hlen]
        · intro t ht
          cases t with
          | zero => simp
          | succ t' =>
            have ht' : t' < f := by omega
            have := hget t' ht'
            simpa [Nat.add_assoc, Nat.add_comm 1 t'] using this
    · cases h

lemma byteXor_self_not_ident (a : Bytes) :
    startsWithBytes IDENT_STR (byteXor a a) = false := by
  cases a with
  | nil => rfl
  | cons x xs =>
    show startsWithBytes IDENT_STR (byteXor (x :: xs) (x :: xs)) = false
    have : byteXor (x :: xs) (x :: xs) =
        ((x ^^^ x) % 256) ::
          ((List.range xs.length).map Nat.succ).map
            (fun j => (((x :: xs).getD j 0) ^^^ ((x :: xs).getD j 0)) % 256) := by
      simp [byteXor, List.range_succ_eq_map, List.map_map]
    rw [this]
    simp [Nat.xor_self, IDENT_STR, startsWithBytes]

lemma dcScan_no_match (r1 r2 : List Bytes) :
    ∀ fuel i, (∀ t, t < fuel →
        startsWithBytes IDENT_STR (byteXor (r1.getD (i + t) []) (r2.getD (i + t) [])) = false) →
      dcScan r1 r2 i fuel = Outcome.merchantDuplicate := by
  intro fuel
  induction fuel with
  | zero => intro i _; rfl
  | succ f ih =>
    intro i h
    have h0 := h 0 (by omega)
    simp only [Nat.add_zero] at h0
    simp only [dcScan, h0]
    simp only [Bool.false_eq_true, if_false]
    apply ih
    intro t ht
    have := h (t + 1) (by omega)
    have harr : i + (t + 1) = i + 1 + t := by omega
    rwa [harr] at this

lemma dcScan_first_match (r1 r2 : List Bytes) :
    ∀ fuel i j, j < fuel →
      (∀ t, t < j →
        startsWithBytes IDENT_STR (byteXor (r1.getD (i + t) []) (r2.getD (i + t) [])) = false) →
      startsWithBytes IDENT_STR (byteXor (r1.getD (i + j) []) (r2.getD (i + j) [])) = true →
      dcScan r1 r2 i fuel =
        Outcome.spenderIdentified
          (extractIdentity (byteXor (r1.getD (i + j) []) (r2.getD (i + j) []))) := by
  intro fuel
  induction fuel with
  | zero => intro i j hj; omega
  | succ f ih =>
    intro i j hj hbefore hmatch
    cases j with
    | zero =>
      simp only [Nat.add_zero] at hmatch
      simp only [dcScan, hmatch, if_true, Nat.add_zero]
    | succ j' =>
      have h0 := hbefore 0 (by omega)
      simp only [Nat.add_zero] at h0
      simp only [dcScan, h0]
      simp only [Bool.false_eq_true, if_false]
      have harr : i + (j' + 1) = i + 1 + j' := by omega
      rw [harr] at hmatch ⊢
      apply ih (i + 1) j' (by omega) _ hmatch
      intro t ht
      have := hbefore (t + 1) (by omega)
      have harr' : i + (t + 1) = i + 1 + t := by omega
      rwa [harr'] at this

/-- Bytes of the ASCII text `FAKE`: a canonical string whose first
`-`-separated field (the whole string) differs from `BANK_STR`. -/
def c7bad : Bytes := [70, 65, 75, 69]

/-- Bytes of the ASCII text `BANK-xx-g-a,b-c-zz`: correct issuer tag,
six `-`-separated fields, non-numeric amount `xx`, left hash list of
length 2 against a right hash list of length 1. -/
def c8cex : Bytes := BANK_STR ++ [45, 120, 120, 45, 103, 45, 97, 44, 98, 45, 99, 45, 122, 122]

/-- Bytes of the ASCII text `IDENTX`: starts with `IDENT_STR` but does
not match the identity-tag pattern (no colon follows the tag). -/
def c5junk : Bytes := IDENT_STR ++ [88]

def zeros6 : Bytes := List.replicate 6 0

def zeros11 : Bytes := List.replicate 11 0

/-- C1 (counterexample): the value returned by a successful acceptance
contains no token id — two tokens differing only in their globally
unique id yield the very same return value (a bare share list), so no
`DepositRecord\x7btokenId, side, revealedShare\x7d` is produced. -/
theorem c1_counterexample :
    aliceCoin.guid ≠ aliceCoin2.guid ∧
    acceptCoinInner hexEncode 3 aliceCoin true = Except.ok aliceLeft ∧
    acceptCoinInner hexEncode 3 aliceCoin2 true = Except.ok aliceLeft :=
  ⟨by decide, rfl, rfl⟩

/-- C1 (amended): for every token accepted successfully, the acceptance
logic (the nested `acceptCoin`) returns exactly the `k` revealed
shares of the chosen side, in index order — a bare array of length
`k`, with no token id and no side field attached. -/
theorem c1_theorem (H : Bytes → Bytes) (k : Nat) (c : Coin) (b : Bool) (ris : List Bytes)
    (h : acceptCoinInner H k c b = Except.ok ris) :
    ris.length = k ∧ ∀ i, i < k → ris.get? i = some (c.getRis b i) := by
  unfold acceptCoinInner at h
  by_cases hs : c.sigOk = false
  · rw [if_pos hs] at h
    exact Except.noConfusion h
  · rw [if_neg hs] at h
    cases hp : parseCoin c.toCanonicalString with
    | error e => rw [hp] at h; exact Except.noConfusion h
    | ok p =>
      rw [hp] at h
      obtain ⟨lh, rh⟩ := p
      have hok := acceptLoop_ok H c b (if b then lh else rh) k 0 ris h
      exact ⟨hok.1, fun i hi => by simpa using hok.2 i hi⟩

/-- C1 (witness): the amended theorem at alice's token, `k = 3`,
left side. -/
theorem c1_witness :
    aliceLeft.length = 3 ∧ ∀ i, i < 3 → aliceLeft.get? i = some (aliceCoin.getRis true i) :=
  c1_theorem hexEncode 3 aliceCoin true aliceLeft rfl

/-- C2 (counterexample): two pairs of records, both with shares that
differ at index 0 and with a byte-wise XOR that at no index decodes to
the identity-tag format, and neither is reported as an inconclusive
case: the first pair (XOR `[12, 10]`, no `IDENT_STR` start) is
classified as the merchant double-report outcome, and the second pair
(XOR `IDENTX`, an `IDENT_STR` start without the tag format's colon)
receives a spender verdict with identity `undefined` — no
`Inconclusive` outcome exists in the code. -/
theorem c2_counterexample :
    ([[5, 6]] : List Bytes) ≠ [[9, 12]] ∧
    (∀ i, i < 1 → identTagPattern
      (byteXor (([[5, 6]] : List Bytes).getD i []) (([[9, 12]] : List Bytes).getD i [])) = false) ∧
    determineCheaterRun 1 [[5, 6]] [[9, 12]] = Outcome.merchantDuplicate ∧
    ([c5junk] : List Bytes) ≠ [zeros6] ∧
    (∀ i, i < 1 → identTagPattern
      (byteXor (([c5junk] : List Bytes).getD i []) (([zeros6] : List Bytes).getD i [])) = false) ∧
    determineCheaterRun 1 [c5junk] [zeros6] = Outcome.spenderIdentified none :=
  ⟨by decide, by decide, rfl, by decide, by decide, rfl⟩

/-- C2 (amended): on the claim's class of record pairs — no index XOR
decodes to the identity-tag format (hypothesis `_hpat`, which scopes
the statement to that class; the code itself never consults the full
tag format, which is exactly the finding) — arbitration never answers
an inconclusive outcome, because the code has none.  Its two possible
answers on the class are exhaustive: when no index XOR even starts
with `IDENT_STR`, the loop falls through to the merchant double-report
outcome (the differing-shares case is folded into
`MerchantDuplicate`); and when some index XOR starts with `IDENT_STR`
(necessarily without the tag format's colon here), the first such
index yields a spender verdict whose identity is the text after that
XOR's first colon — `none` (JS `undefined`) when there is none. -/
theorem c2_theorem (k : Nat) (r1 r2 : List Bytes)
    (_hpat : ∀ i, i < k →
      identTagPattern (byteXor (r1.getD i []) (r2.getD i [])) = false) :
    ((∀ i, i < k →
        startsWithBytes IDENT_STR (byteXor (r1.getD i []) (r2.getD i [])) = false) →
      determineCheaterRun k r1 r2 = Outcome.merchantDuplicate) ∧
    (∀ i, i < k →
      (∀ j, j < i →
        startsWithBytes IDENT_STR (byteXor (r1.getD j []) (r2.getD j [])) = false) →
      startsWithBytes IDENT_STR (byteXor (r1.getD i []) (r2.getD i [])) = true →
      determineCheaterRun k r1 r2 =
        Outcome.spenderIdentified (extractIdentity (byteXor (r1.getD i []) (r2.getD i [])))) := by
  constructor
  · intro h
    show dcScan r1 r2 0 k = Outcome.merchantDuplicate
    exact dcScan_no_match r1 r2 k 0 (fun t ht => by simpa using h t ht)
  · intro i hik hbefore hmatch
    show dcScan r1 r2 0 k = _
    have := dcScan_first_match r1 r2 k 0 i hik
      (fun t ht => by simpa using hbefore t ht) (by simpa using hmatch)
    simpa using this

/-- C2 (witness): the amended theorem's merchant branch on a concrete
differing pair in the claim's class. -/
theorem c2_witness : determineCheaterRun 1 [[5]] [[9]] = Outcome.merchantDuplicate :=
  (c2_theorem 1 [[5]] [[9]] (by decide)).1 (by decide)

/-- C3: when the signature does not verify, the acceptance logic (the
nested `acceptCoin`) fails with the invalid-signature error, for every
hash function, every redundancy `k`, every commitment list and every
share content — the verdict depends on nothing inspected after the
signature check, so no share is examined and no hash is compared, and
no record is produced. -/
theorem c3_theorem (H : Bytes → Bytes) (k : Nat) (c : Coin) (b : Bool)
    (h : c.sigOk = false) :
    acceptCoinInner H k c b = Except.error AcceptError.invalidSignature := by
  simp [acceptCoinInner, h]

/-- C3 (witness): alice's token with a failing signature verdict. -/
theorem c3_witness :
    acceptCoinInner hexEncode 3 badCoin true = Except.error AcceptError.invalidSignature :=
  c3_theorem hexEncode 3 badCoin true rfl

/-- C4: for the token built for identity `alice`, amount `20`, `k = 3`,
one acceptance revealing the left half and a second revealing the
right half, arbitration identifies `alice` as the spender. -/
theorem c4_theorem :
    aliceCoin.amount = 20 ∧
    acceptCoinInner hexEncode 3 aliceCoin true = Except.ok aliceLeft ∧
    acceptCoinInner hexEncode 3 aliceCoin false = Except.ok aliceRight ∧
    determineCheaterRun 3 aliceLeft aliceRight = Outcome.spenderIdentified (some aliceId) :=
  ⟨rfl, rfl, rfl, rfl⟩

/-- C5 (counterexample): the scan returns at the first index whose XOR
merely starts with `IDENT_STR`, not at the first index matching the
identity-tag pattern: here index 0 decodes to `IDENTX` (no colon, not
the pattern), index 1 decodes to `IDENT:alice` (the pattern, identity
`alice`), yet the run answers with identity `none` (JS `undefined`),
taken from index 0. -/
theorem c5_counterexample :
    identTagPattern (byteXor c5junk zeros6) = false ∧
    identTagPattern (byteXor identTag zeros11) = true ∧
    extractIdentity (byteXor identTag zeros11) = some aliceId ∧
    determineCheaterRun 2 [c5junk, identTag] [zeros6, zeros11] =
      Outcome.spenderIdentified none :=
  ⟨rfl, rfl, rfl, rfl⟩

/-- C5 (amended): the scan visits indices in order and returns
immediately at the first index whose byte-wise XOR starts with
`IDENT_STR` (the colon is not required), with identity the text after
the first colon of that XOR (`none` when no colon is present); the
hypotheses constrain nothing past that index, so later indices cannot
influence the outcome. -/
theorem c5_theorem (k : Nat) (r1 r2 : List Bytes) (i : Nat) (hik : i < k)
    (hbefore : ∀ j, j < i →
      startsWithBytes IDENT_STR (byteXor (r1.getD j []) (r2.getD j [])) = false)
    (hmatch : startsWithBytes IDENT_STR (byteXor (r1.getD i []) (r2.getD i [])) = true) :
    determineCheaterRun k r1 r2 =
      Outcome.spenderIdentified (extractIdentity (byteXor (r1.getD i []) (r2.getD i []))) := by
  show dcScan r1 r2 0 k = _
  have := dcScan_first_match r1 r2 k 0 i hik
    (fun t ht => by simpa using hbefore t ht) (by simpa using hmatch)
  simpa using this

/-- C5 (witness): the amended theorem with a tag-decoding XOR at
index 0. -/
theorem c5_witness :
    determineCheaterRun 1 [identTag] [zeros11] =
      Outcome.spenderIdentified
        (extractIdentity (byteXor ([identTag].getD 0 []) ([zeros11].getD 0 []))) :=
  c5_theorem 1 [identTag] [zeros11] 0 (by omega)
    (fun j hj => absurd hj (Nat.not_lt_zero j)) (by decide)

/-- C6: two acceptances of the same token that selected the identical
side produce the same record, and arbitration on them (equivalently,
on one record against itself) answers the merchant double-report
outcome and never identifies a spender. -/
theorem c6_theorem (H : Bytes → Bytes) (k : Nat) (c : Coin) (b : Bool) (n : Nat)
    (r1 r2 : List Bytes)
    (h1 : acceptCoinInner H k c b = Except.ok r1)
    (h2 : acceptCoinInner H k c b = Except.ok r2) :
    determineCheaterRun n r1 r2 = Outcome.merchantDuplicate ∧
    ∀ ident, determineCheaterRun n r1 r2 ≠ Outcome.spenderIdentified ident := by
  have hr : r1 = r2 := by
    rw [h1] at h2
    exact Except.ok.inj h2
  subst hr
  have hd : determineCheaterRun n r1 r1 = Outcome.merchantDuplicate := by
    show dcScan r1 r1 0 n = Outcome.merchantDuplicate
    exact dcScan_no_match r1 r1 n 0 (fun t _ => byteXor_self_not_ident _)
  exact ⟨hd, fun ident hcon => by rw [hd] at hcon; exact Outcome.noConfusion hcon⟩

/-- C6 (witness): two left-side acceptances of alice's token. -/
theorem c6_witness :
    determineCheaterRun 3 aliceLeft aliceLeft = Outcome.merchantDuplicate ∧
    ∀ ident, determineCheaterRun 3 aliceLeft aliceLeft ≠ Outcome.spenderIdentified ident :=
  c6_theorem hexEncode 3 aliceCoin true 3 aliceLeft aliceLeft rfl rfl

/-- C7: every canonical string whose first `-`-separated field differs
from `BANK_STR` makes the parser throw the format error, whatever the
remaining fields hold. -/
theorem c7_theorem (s : Bytes) (h : (splitOn 45 s).getD 0 [] ≠ BANK_STR) :
    parseCoin s = Except.error ParseError.formatError := by
  simp only [parseCoin]
  simp
  intro hc
  exact absurd (show (splitOn 45 s).getD 0 [] = BANK_STR by simpa using hc) h

/-- C7 (witness): the theorem at the concrete tag `FAKE`. -/
theorem c7_witness : parseCoin c7bad = Except.error ParseError.formatError :=
  c7_theorem c7bad (by decide)

/-- C8 (counterexample): an input with six `-`-separated fields, a
non-numeric amount `xx` and hash lists of lengths 2 and 1 parses
successfully — none of the validations the claim asserts exists. -/
theorem c8_counterexample :
    (splitOn 45 c8cex).length = 6 ∧
    parseCoin c8cex = Except.ok ([[97], [98]], [[99]]) :=
  ⟨rfl, rfl⟩

/-- C8 (amended): for every input whose first field equals `BANK_STR`,
the parser never raises the format error: with at least five fields it
succeeds outright — the field count beyond five, the hash-list
lengths and the amount are never validated — and with fewer than five
fields it fails only with the JavaScript TypeError of splitting
`undefined`. -/
theorem c8_theorem (s : Bytes) (h : (splitOn 45 s).getD 0 [] = BANK_STR) :
    parseCoin s =
      if (splitOn 45 s).length < 5 then Except.error ParseError.typeError
      else Except.ok (splitOn 44 ((splitOn 45 s).getD 3 []),
                      splitOn 44 ((splitOn 45 s).getD 4 [])) := by
  simp only [parseCoin]
  simp
  intro hc
  exact absurd (by simpa using h) hc

/-- C8 (witness): the amended theorem at the six-field input. -/
theorem c8_witness :
    parseCoin c8cex =
      if (splitOn 45 c8cex).length < 5 then Except.error ParseError.typeError
      else Except.ok (splitOn 44 ((splitOn 45 c8cex).getD 3 []),
                      splitOn 44 ((splitOn 45 c8cex).getD 4 [])) :=
  c8_theorem c8cex (by decide)

/-- C9: the outer `acceptCoin` terminates normally on every argument
and returns `undefined` (`none`); its result does not depend on the
coin at all — no exception, no signature verification, no hash
comparison — because the verification logic sits in a nested function
of the same name that is never invoked. -/
theorem c9_theorem : ∀ c c' : Coin, acceptCoin c = none ∧ acceptCoin c = acceptCoin c' :=
  fun _ _ => ⟨rfl, rfl⟩

/-- C10: the outer `determineCheater` terminates normally on every
argument triple and returns `undefined` (`none`) with no
classification; its result does not depend on any argument — the
arbitration logic sits in a nested function of the same name that is
never invoked. -/
theorem c10_theorem :
    ∀ (g g' : Bytes) (r1 r2 r1' r2' : List Bytes),
      determineCheater g r1 r2 = none ∧
      determineCheater g r1 r2 = determineCheater g' r1' r2' :=
  fun _ _ _ _ _ _ => ⟨rfl, rfl⟩
